import Mathlib

set_option maxRecDepth 8000

/-!
Shallow embedding of the governance budget allocator contract
(`src/lib.rs`, Soroban smart contract `GovernanceBudgetAllocator`).

Principals (Soroban `Address` values) are opaque identifiers compared only
for equality; we model them as natural numbers.  The persistent key-value
store holds three independent entries (`Owner`, `Operators`, `Budget`);
we model it as a record of three `Option` fields, `none` meaning the key
is absent.  Soroban `i128` values are modelled as `Int` together with the
explicit range `[-2^127, 2^127 - 1]`; `checked_add` / `checked_sub` fail
exactly when the true result leaves that range.

Each contract call has three observable outcomes: a host trap (a Rust
`panic!`, or an `unwrap()` of an absent storage key), a typed contract
error (`Err(BudgetError::…)`, surfaced by Soroban as `Error(Contract, #n)`
and distinct from a trap), or success.  `Outcome` has one constructor for
each.  `require_auth` is an external collaborator that aborts the call
before the contract logic runs when the invoking identity does not match
`caller`; the functions below model the contract logic that executes once
authentication has succeeded, as the spec's claims do.
-/

/-- Opaque principal identity (Soroban `Address`): equality only. -/
def Principal : Type := Nat

instance : DecidableEq Principal := inferInstanceAs (DecidableEq Nat)

instance : OfNat Principal n := inferInstanceAs (OfNat Nat n)

/-- Smallest `i128` value, `-2^127`. -/
def i128Min : Int := -(2 ^ 127)

/-- Largest `i128` value, `2^127 - 1`. -/
def i128Max : Int := 2 ^ 127 - 1

/-- The integer `n` is representable as a signed 128-bit value. -/
def inI128 (n : Int) : Prop := i128Min ≤ n ∧ n ≤ i128Max

instance (n : Int) : Decidable (inI128 n) :=
  inferInstanceAs (Decidable (i128Min ≤ n ∧ n ≤ i128Max))

/-- Rust `i128::checked_add`: `none` exactly when the exact sum leaves the
signed 128-bit range (for arguments that are themselves in range). -/
def checked_add (a b : Int) : Option Int :=
  if inI128 (a + b) then some (a + b) else none

/-- Rust `i128::checked_sub`: `none` exactly when the exact difference
leaves the signed 128-bit range. -/
def checked_sub (a b : Int) : Option Int :=
  if inI128 (a - b) then some (a - b) else none

/-- The `BudgetState` struct stored under `DataKey::Budget`. -/
structure BudgetState where
  current : Int
  min : Int
  max : Int
deriving DecidableEq

/-- The `BudgetError` contract error enum (numbered 1..9). -/
inductive BudgetError where
  | NotOwner
  | NotOperator
  | AlreadyOperator
  | NotOperatorFound
  | Overflow
  | Underflow
  | ExceedsMax
  | BelowMin
  | InvalidLimits
deriving DecidableEq

/-- Observable outcome of a contract call: a host trap (Rust `panic!` or
`unwrap()` of an absent key), a typed contract error, or success. -/
inductive Outcome (α : Type) where
  | trap
  | err (e : BudgetError)
  | ok (v : α)
deriving DecidableEq

/-- The persistent store: the three `DataKey` entries, `none` = absent. -/
structure Store where
  owner : Option Principal
  operators : Option (List Principal)
  budget : Option BudgetState
deriving DecidableEq

/-- The store before `initialize`: no key present. -/
def emptyStore : Store := ⟨none, none, none⟩

/-- Early-returning linear scan `for op in operators.iter() { if op == x
{ … true … } }` used by the duplicate check in `add_operator`, the
operator checks in `increase_budget` / `decrease_budget`, and
`is_operator`. -/
def containsP (x : Principal) : List Principal → Bool
  | [] => false
  | op :: rest => if op = x then true else containsP x rest

/-- The removal loop of `remove_operator`: scans the list, sets `found`
on a match and pushes every other element onto `new_operators`. Returns
`(found, new_operators)`. -/
def removeLoop (target : Principal) : List Principal → Bool × List Principal
  | [] => (false, [])
  | op :: rest =>
    let r := removeLoop target rest
    if op = target then (true, r.2) else (r.1, op :: r.2)

/-- The `initialize` entry point.  Its Rust signature returns `()` (not
`Result`); the only failure path is `panic!("Invalid limits: …")` when
`min > initial || initial > max`, which traps before any write.  On
success it writes all three keys. -/
def initLedger (s : Store) (owner : Principal) (initial mn mx : Int) :
    Outcome Unit × Store :=
  if mn > initial ∨ initial > mx then (.trap, s)
  else (.ok (), { owner := some owner,
                  operators := some ([] : List Principal),
                  budget := some ⟨initial, mn, mx⟩ })

/-- The `add_operator` entry point (after `require_auth` has passed). -/
def add_operator (s : Store) (caller operator : Principal) :
    Outcome Unit × Store :=
  match s.owner with
  | none => (.trap, s)
  | some owner =>
    if caller ≠ owner then (.err .NotOwner, s)
    else
      match s.operators with
      | none => (.trap, s)
      | some ops =>
        if containsP operator ops then (.err .AlreadyOperator, s)
        else (.ok (), { s with operators := some (ops ++ [operator]) })

/-- The `remove_operator` entry point (after `require_auth` has passed). -/
def remove_operator (s : Store) (caller operator : Principal) :
    Outcome Unit × Store :=
  match s.owner with
  | none => (.trap, s)
  | some owner =>
    if caller ≠ owner then (.err .NotOwner, s)
    else
      match s.operators with
      | none => (.trap, s)
      | some ops =>
        let r := removeLoop operator ops
        if !r.1 then (.err .NotOperatorFound, s)
        else (.ok (), { s with operators := some r.2 })

/-- The `increase_budget` entry point (after `require_auth` has passed). -/
def increase_budget (s : Store) (caller : Principal) (amount : Int) :
    Outcome Int × Store :=
  match s.operators with
  | none => (.trap, s)
  | some ops =>
    if !containsP caller ops then (.err .NotOperator, s)
    else
      match s.budget with
      | none => (.trap, s)
      | some b =>
        match checked_add b.current amount with
        | none => (.err .Overflow, s)
        | some new_value =>
          if new_value > b.max then (.err .ExceedsMax, s)
          else (.ok new_value, { s with budget := some { b with current := new_value } })

/-- The `decrease_budget` entry point (after `require_auth` has passed). -/
def decrease_budget (s : Store) (caller : Principal) (amount : Int) :
    Outcome Int × Store :=
  match s.operators with
  | none => (.trap, s)
  | some ops =>
    if !containsP caller ops then (.err .NotOperator, s)
    else
      match s.budget with
      | none => (.trap, s)
      | some b =>
        match checked_sub b.current amount with
        | none => (.err .Underflow, s)
        | some new_value =>
          if new_value < b.min then (.err .BelowMin, s)
          else (.ok new_value, { s with budget := some { b with current := new_value } })

/-- The `get_budget` read: `unwrap()` traps when the key is absent. -/
def get_budget (s : Store) : Outcome BudgetState :=
  match s.budget with
  | none => .trap
  | some b => .ok b

/-- The `get_owner` read. -/
def get_owner (s : Store) : Outcome Principal :=
  match s.owner with
  | none => .trap
  | some o => .ok o

/-- The `get_operators` read. -/
def get_operators (s : Store) : Outcome (List Principal) :=
  match s.operators with
  | none => .trap
  | some ops => .ok ops

/-- The `is_operator` read: linear scan with early return. -/
def is_operator (s : Store) (address : Principal) : Outcome Bool :=
  match s.operators with
  | none => .trap
  | some ops => .ok (containsP address ops)

/-- The spec's state invariant: whenever the `Budget` key is present,
`min ≤ current ≤ max`, and whenever the `Operators` key is present, the
sequence has no duplicate principals. -/
def StoreInv (s : Store) : Prop :=
  (∀ b : BudgetState, s.budget = some b → b.min ≤ b.current ∧ b.current ≤ b.max) ∧
  (∀ ops : List Principal, s.operators = some ops → ops.Nodup)

/-- One post-initialization mutating call, with its arguments. -/
inductive BudgetAction where
  | addOp (caller operator : Principal)
  | removeOp (caller operator : Principal)
  | incB (caller : Principal) (amount : Int)
  | decB (caller : Principal) (amount : Int)
deriving DecidableEq

/-- Run one action, keeping the resulting store only on success. -/
def stepOk (s : Store) : BudgetAction → Option Store
  | .addOp c o =>
    match add_operator s c o with
    | (.ok _, s') => some s'
    | _ => none
  | .removeOp c o =>
    match remove_operator s c o with
    | (.ok _, s') => some s'
    | _ => none
  | .incB c a =>
    match increase_budget s c a with
    | (.ok _, s') => some s'
    | _ => none
  | .decB c a =>
    match decrease_budget s c a with
    | (.ok _, s') => some s'
    | _ => none

/-- Run a sequence of actions, succeeding only if every call succeeds. -/
def runOk (s : Store) : List BudgetAction → Option Store
  | [] => some s
  | a :: rest =>
    match stepOk s a with
    | none => none
    | some s' => runOk s' rest

/-- The action's amount argument (if any) is non-negative. -/
def actionNonneg : BudgetAction → Prop
  | .incB _ amt => 0 ≤ amt
  | .decB _ amt => 0 ≤ amt
  | _ => True

/-- Every budget-mutation in the list carries a non-negative amount. -/
def nonnegAmounts (l : List BudgetAction) : Prop :=
  ∀ a ∈ l, actionNonneg a

example : initLedger emptyStore 0 1000 0 10000 =
    (.ok (), ⟨some 0, some [], some ⟨1000, 0, 10000⟩⟩) := by decide

example : (initLedger emptyStore 0 5 10 20).1 = .trap := by decide

example :
    increase_budget ⟨some 0, some [1], some ⟨1000, 0, 10000⟩⟩ 1 500 =
      (.ok 1500, ⟨some 0, some [1], some ⟨1500, 0, 10000⟩⟩) := by decide

example :
    (increase_budget ⟨some 0, some [1], some ⟨5, 0, 10⟩⟩ 1 (-100)).1 =
      .ok (-95) := by decide

/-! Helper lemmas about the scan loops and checked arithmetic. -/

theorem checked_add_some {a b n : Int} (h : checked_add a b = some n) :
    n = a + b ∧ inI128 n := by
  unfold checked_add at h
  split at h
  · cases h
    exact ⟨rfl, by assumption⟩
  · cases h

theorem checked_sub_some {a b n : Int} (h : checked_sub a b = some n) :
    n = a - b ∧ inI128 n := by
  unfold checked_sub at h
  split at h
  · cases h
    exact ⟨rfl, by assumption⟩
  · cases h

theorem checked_add_eq_some {a b : Int} (h : inI128 (a + b)) :
    checked_add a b = some (a + b) := by
  unfold checked_add
  simp [h]

theorem checked_sub_eq_some {a b : Int} (h : inI128 (a - b)) :
    checked_sub a b = some (a - b) := by
  unfold checked_sub
  simp [h]

theorem checked_add_eq_none {a b : Int} (h : ¬ inI128 (a + b)) :
    checked_add a b = none := by
  unfold checked_add
  simp [h]

theorem checked_sub_eq_none {a b : Int} (h : ¬ inI128 (a - b)) :
    checked_sub a b = none := by
  unfold checked_sub
  simp [h]

theorem containsP_iff_mem (x : Principal) (l : List Principal) :
    containsP x l = true ↔ x ∈ l := by
  induction l with
  | nil => simp [containsP]
  | cons a t ih =>
    by_cases hax : a = x
    · simp [containsP, hax]
    · simp only [containsP, if_neg hax, ih, List.mem_cons]
      constructor
      · exact Or.inr
      · rintro (hx | hx)
        · exact absurd hx.symm hax
        · exact hx

theorem containsP_false_iff (x : Principal) (l : List Principal) :
    containsP x l = false ↔ x ∉ l := by
  rw [← containsP_iff_mem]
  cases containsP x l <;> simp

theorem removeLoop_fst (t : Principal) (l : List Principal) :
    (removeLoop t l).1 = containsP t l := by
  induction l with
  | nil => rfl
  | cons a rest ih =>
    by_cases hat : a = t
    · simp [removeLoop, containsP, hat]
    · simp only [removeLoop, containsP, if_neg hat, ih]

theorem removeLoop_snd (t : Principal) (l : List Principal) :
    (removeLoop t l).2 = l.filter (fun p => decide (p ≠ t)) := by
  induction l with
  | nil => rfl
  | cons a rest ih =>
    by_cases hat : a = t
    · simp [removeLoop, hat, List.filter, ih]
    · simp [removeLoop, hat, List.filter, ih]

/-! Invariant preservation: each entry point, run on a store satisfying
`StoreInv`, leaves a store satisfying it (for the budget mutations, under
a non-negative amount). -/

theorem add_operator_inv (s : Store) (c o : Principal) (h : StoreInv s) :
    StoreInv (add_operator s c o).2 := by
  unfold add_operator
  split
  · exact h
  next ow hso =>
    split
    · exact h
    next hc =>
      split
      · exact h
      next ops hops =>
        split
        · exact h
        next hcont =>
          constructor
          · intro b hb
            exact h.1 b hb
          · intro ops' hops'
            simp only [Option.some.injEq] at hops'
            subst hops'
            have hnd : ops.Nodup := h.2 ops hops
            have hmem : o ∉ ops := by
              rw [← containsP_iff_mem]
              simpa using hcont
            simp [List.nodup_append, hnd, hmem]

theorem remove_operator_inv (s : Store) (c o : Principal) (h : StoreInv s) :
    StoreInv (remove_operator s c o).2 := by
  unfold remove_operator
  split
  · exact h
  next ow hso =>
    split
    · exact h
    next hc =>
      split
      · exact h
      next ops hops =>
        dsimp only
        split
        · exact h
        next hfound =>
          constructor
          · intro b hb
            exact h.1 b hb
          · intro ops' hops'
            simp only [Option.some.injEq] at hops'
            subst hops'
            rw [removeLoop_snd]
            exact (h.2 ops hops).filter _

theorem increase_budget_inv (s : Store) (c : Principal) (amount : Int)
    (ha : 0 ≤ amount) (h : StoreInv s) :
    StoreInv (increase_budget s c amount).2 := by
  unfold increase_budget
  split
  · exact h
  next ops hops =>
    split
    · exact h
    next hc =>
      split
      · exact h
      next b hb =>
        split
        · exact h
        next nv hadd =>
          split
          · exact h
          next hle =>
            obtain ⟨hnv, _⟩ := checked_add_some hadd
            have hbnd := h.1 b hb
            constructor
            · intro b' hb'
              simp only [Option.some.injEq] at hb'
              subst hb'
              constructor
              · simp only [hnv]
                omega
              · simpa using not_lt.mp (fun hgt => hle hgt)
            · intro ops' hops'
              exact h.2 ops' hops'

theorem decrease_budget_inv (s : Store) (c : Principal) (amount : Int)
    (ha : 0 ≤ amount) (h : StoreInv s) :
    StoreInv (decrease_budget s c amount).2 := by
  unfold decrease_budget
  split
  · exact h
  next ops hops =>
    split
    · exact h
    next hc =>
      split
      · exact h
      next b hb =>
        split
        · exact h
        next nv hsub =>
          split
          · exact h
          next hge =>
            obtain ⟨hnv, _⟩ := checked_sub_some hsub
            have hbnd := h.1 b hb
            constructor
            · intro b' hb'
              simp only [Option.some.injEq] at hb'
              subst hb'
              constructor
              · simpa using not_lt.mp (fun hlt => hge hlt)
              · simp only [hnv]
                omega
            · intro ops' hops'
              exact h.2 ops' hops'

theorem stepOk_inv {s s' : Store} {a : BudgetAction} (hnn : actionNonneg a)
    (h : StoreInv s) (hs : stepOk s a = some s') : StoreInv s' := by
  cases a with
  | addOp c o =>
    simp only [stepOk] at hs
    split at hs
    next v s'' heq =>
      have h2 := add_operator_inv s c o h
      rw [heq] at h2
      cases hs
      exact h2
    next => cases hs
  | removeOp c o =>
    simp only [stepOk] at hs
    split at hs
    next v s'' heq =>
      have h2 := remove_operator_inv s c o h
      rw [heq] at h2
      cases hs
      exact h2
    next => cases hs
  | incB c amt =>
    simp only [stepOk] at hs
    split at hs
    next v s'' heq =>
      have h2 := increase_budget_inv s c amt hnn h
      rw [heq] at h2
      cases hs
      exact h2
    next => cases hs
  | decB c amt =>
    simp only [stepOk] at hs
    split at hs
    next v s'' heq =>
      have h2 := decrease_budget_inv s c amt hnn h
      rw [heq] at h2
      cases hs
      exact h2
    next => cases hs

theorem runOk_inv : ∀ {l : List BudgetAction} {s s' : Store},
    nonnegAmounts l → StoreInv s → runOk s l = some s' → StoreInv s' := by
  intro l
  induction l with
  | nil =>
    intro s s' _ h hr
    cases hr
    exact h
  | cons a rest ih =>
    intro s s' hnn h hr
    simp only [runOk] at hr
    split at hr
    · cases hr
    next s₁ hstep =>
      exact ih (fun b hb => hnn b (List.mem_cons_of_mem _ hb))
        (stepOk_inv (hnn a (List.mem_cons_self _ _)) h hstep) hr

theorem initLedger_inv {s s' : Store} {o : Principal} {initial mn mx : Int}
    {u : Unit} (h : initLedger s o initial mn mx = (.ok u, s')) :
    StoreInv s' := by
  unfold initLedger at h
  split at h
  · cases h
  next hlim =>
    push_neg at hlim
    simp only [Prod.mk.injEq] at h
    rw [← h.2]
    constructor
    · intro b hb
      simp only [Option.some.injEq] at hb
      subst hb
      exact ⟨hlim.1, hlim.2⟩
    · intro ops hops
      simp only [Option.some.injEq] at hops
      subst hops
      exact List.nodup_nil

instance (a : BudgetAction) : Decidable (actionNonneg a) :=
  match a with
  | .addOp _ _ => inferInstanceAs (Decidable True)
  | .removeOp _ _ => inferInstanceAs (Decidable True)
  | .incB _ amt => inferInstanceAs (Decidable (0 ≤ amt))
  | .decB _ amt => inferInstanceAs (Decidable (0 ≤ amt))

instance (l : List BudgetAction) : Decidable (nonnegAmounts l) :=
  inferInstanceAs (Decidable (∀ a ∈ l, actionNonneg a))

/-- C1 counterexample: the claim as stated is false.  From the state
successfully initialized with `initial = 5`, `min = 0`, `max = 10`, after
the owner adds operator `1`, the successful call
`increase_budget(1, -100)` persists `current = -95 < min = 0`:
`increase_budget` checks only the `max` bound, so a negative amount
drives the budget below `min`. -/
theorem budget_C1_cex :
    (initLedger emptyStore 0 5 0 10).1 = .ok () ∧
    runOk (initLedger emptyStore 0 5 0 10).2
        [.addOp 0 1, .incB 1 (-100)] =
      some ⟨some 0, some [1], some ⟨-95, 0, 10⟩⟩ ∧
    ¬ StoreInv ⟨some 0, some [1], some ⟨-95, 0, 10⟩⟩ := by
  refine ⟨by decide, by decide, ?_⟩
  intro h
  have h2 := h.1 ⟨-95, 0, 10⟩ rfl
  have h3 : (0 : Int) ≤ -95 := h2.1
  omega

/-- C1 (amended): for every state reachable from a successful initialize
by a sequence of successful operations all of whose `increase_budget` and
`decrease_budget` amounts are non-negative, the persisted budget
satisfies `min ≤ current ≤ max` and the persisted operator sequence has
no duplicate principals.  (With arbitrary — in particular negative —
amounts the bound part fails, see the counterexample.) -/
theorem budget_C1 {s0 s' : Store} {o : Principal} {initial mn mx : Int}
    {u : Unit} {l : List BudgetAction}
    (hinit : initLedger emptyStore o initial mn mx = (.ok u, s0))
    (hnn : nonnegAmounts l) (hrun : runOk s0 l = some s') :
    StoreInv s' :=
  runOk_inv hnn (initLedger_inv hinit) hrun

/-- Witness for C1: a concrete successful initialization followed by a
concrete successful add / increase / decrease / remove sequence. -/
theorem budget_C1_witness :
    initLedger emptyStore 0 1000 0 10000 =
      (.ok (), ⟨some 0, some [], some ⟨1000, 0, 10000⟩⟩) ∧
    nonnegAmounts [.addOp 0 1, .incB 1 500, .decB 1 200, .removeOp 0 1] ∧
    runOk ⟨some 0, some [], some ⟨1000, 0, 10000⟩⟩
        [.addOp 0 1, .incB 1 500, .decB 1 200, .removeOp 0 1] =
      some ⟨some 0, some [], some ⟨1300, 0, 10000⟩⟩ ∧
    StoreInv ⟨some 0, some [], some ⟨1300, 0, 10000⟩⟩ :=
  ⟨by decide, by decide, by decide,
    @budget_C1 ⟨some 0, some [], some ⟨1000, 0, 10000⟩⟩
      ⟨some 0, some [], some ⟨1300, 0, 10000⟩⟩ 0 1000 0 10000 ()
      [.addOp 0 1, .incB 1 500, .decB 1 200, .removeOp 0 1]
      (by decide) (by decide) (by decide)⟩

/-! More helper lemmas: `none` characterizations of checked arithmetic,
and reduction of the two budget mutations for an authorized operator. -/

theorem checked_add_none_iff {a b : Int} :
    checked_add a b = none ↔ ¬ inI128 (a + b) := by
  unfold checked_add
  split <;> simp_all

theorem checked_sub_none_iff {a b : Int} :
    checked_sub a b = none ↔ ¬ inI128 (a - b) := by
  unfold checked_sub
  split <;> simp_all

theorem increase_budget_eq {s : Store} {ops : List Principal}
    {b : BudgetState} {caller : Principal} (hops : s.operators = some ops)
    (hc : containsP caller ops = true) (hb : s.budget = some b)
    (amount : Int) :
    increase_budget s caller amount =
      match checked_add b.current amount with
      | none => (.err .Overflow, s)
      | some nv =>
        if nv > b.max then (.err .ExceedsMax, s)
        else (.ok nv, { s with budget := some { b with current := nv } }) := by
  unfold increase_budget
  simp [hops, hc, hb]

theorem decrease_budget_eq {s : Store} {ops : List Principal}
    {b : BudgetState} {caller : Principal} (hops : s.operators = some ops)
    (hc : containsP caller ops = true) (hb : s.budget = some b)
    (amount : Int) :
    decrease_budget s caller amount =
      match checked_sub b.current amount with
      | none => (.err .Underflow, s)
      | some nv =>
        if nv < b.min then (.err .BelowMin, s)
        else (.ok nv, { s with budget := some { b with current := nv } }) := by
  unfold decrease_budget
  simp [hops, hc, hb]

/-- C2 counterexample: at `owner = 0`, `initial = 5`, `min = 10`,
`max = 20` (the spec's Scenario F), `initialize` does fail without
writing state, but it fails by a `panic!` (a host trap), not with the
typed contract error `InvalidLimits`: the Rust signature returns `()`
(not `Result`), and `BudgetError::InvalidLimits` is never produced by
any code path. -/
theorem budget_C2_cex :
    ((10 : Int) > 5 ∨ (5 : Int) > 20) ∧
    (initLedger emptyStore 0 5 10 20).1 = .trap ∧
    (initLedger emptyStore 0 5 10 20).1 ≠
      Outcome.err BudgetError.InvalidLimits ∧
    (initLedger emptyStore 0 5 10 20).2 = emptyStore := by decide

/-- C2 (amended): for `min > initial` or `initial > max`, `initialize`
fails — by panicking, i.e. a host trap, not by returning the typed error
`InvalidLimits` — and writes no persisted state (neither `Owner`, nor
`Operators`, nor `Budget` is present afterwards); for
`min ≤ initial ≤ max` it persists `Owner = owner`, an empty operator
sequence, and `Budget = {current: initial, min, max}`. -/
theorem budget_C2 (o : Principal) (initial mn mx : Int) :
    (mn > initial ∨ initial > mx →
      initLedger emptyStore o initial mn mx = (.trap, emptyStore)) ∧
    (mn ≤ initial → initial ≤ mx →
      initLedger emptyStore o initial mn mx =
        (.ok (), ⟨some o, some [], some ⟨initial, mn, mx⟩⟩)) := by
  constructor
  · intro h
    simp [initLedger, h]
  · intro h1 h2
    have hno : ¬ (mn > initial ∨ initial > mx) := by omega
    simp [initLedger, hno]

/-- Witness for C2, at Scenario F's failing input and Scenario A's
succeeding one. -/
theorem budget_C2_witness :
    (((10 : Int) > 5 ∨ (5 : Int) > 20) ∧
      initLedger emptyStore 0 5 10 20 = (.trap, emptyStore)) ∧
    ((0 : Int) ≤ 1000 ∧ (1000 : Int) ≤ 10000 ∧
      initLedger emptyStore 0 1000 0 10000 =
        (.ok (), ⟨some 0, some [], some ⟨1000, 0, 10000⟩⟩)) :=
  ⟨⟨by decide, (budget_C2 0 5 10 20).1 (by decide)⟩,
    by decide, by decide, (budget_C2 0 1000 0 10000).2 (by decide) (by decide)⟩

/-- C3 (confirmed): for an Active state and a caller in the operator set,
`increase_budget` with `current + amount` representable in `i128` and
`≤ max` returns `Ok(current + amount)` and persists it as the new
`current`; symmetrically `decrease_budget` returns and persists
`current - amount` when representable and `≥ min`. -/
theorem budget_C3 {s : Store} {ops : List Principal} {b : BudgetState}
    {caller : Principal} (hops : s.operators = some ops)
    (hcall : caller ∈ ops) (hb : s.budget = some b) :
    (∀ amount : Int, inI128 (b.current + amount) →
      b.current + amount ≤ b.max →
      increase_budget s caller amount =
        (.ok (b.current + amount),
          { s with budget := some { b with current := b.current + amount } })) ∧
    (∀ amount : Int, inI128 (b.current - amount) →
      b.min ≤ b.current - amount →
      decrease_budget s caller amount =
        (.ok (b.current - amount),
          { s with budget := some { b with current := b.current - amount } })) := by
  have hc : containsP caller ops = true := (containsP_iff_mem caller ops).mpr hcall
  constructor
  · intro amount hrep hle
    rw [increase_budget_eq hops hc hb, checked_add_eq_some hrep]
    simp [not_lt.mpr hle]
  · intro amount hrep hge
    rw [decrease_budget_eq hops hc hb, checked_sub_eq_some hrep]
    simp [not_lt.mpr hge]

/-- Witness for C3 at Scenario C's state: operator `1` increases by 500
from 1000 (bounds 0/10000) and decreases by 200. -/
theorem budget_C3_witness :
    ((⟨some 0, some [1], some ⟨1000, 0, 10000⟩⟩ : Store).operators = some [1] ∧
      (1 : Principal) ∈ [(1 : Principal)] ∧
      (⟨some 0, some [1], some ⟨1000, 0, 10000⟩⟩ : Store).budget =
        some ⟨1000, 0, 10000⟩ ∧
      inI128 ((1000 : Int) + 500) ∧ (1000 : Int) + 500 ≤ 10000 ∧
      inI128 ((1000 : Int) - 200) ∧ (0 : Int) ≤ 1000 - 200) ∧
    increase_budget ⟨some 0, some [1], some ⟨1000, 0, 10000⟩⟩ 1 500 =
      (.ok 1500, ⟨some 0, some [1], some ⟨1500, 0, 10000⟩⟩) ∧
    decrease_budget ⟨some 0, some [1], some ⟨1000, 0, 10000⟩⟩ 1 200 =
      (.ok 800, ⟨some 0, some [1], some ⟨800, 0, 10000⟩⟩) :=
  ⟨by decide,
    by exact (@budget_C3 ⟨some 0, some [1], some ⟨1000, 0, 10000⟩⟩ [1]
      ⟨1000, 0, 10000⟩ 1 rfl (by decide) rfl).1 500 (by decide) (by decide),
    by exact (@budget_C3 ⟨some 0, some [1], some ⟨1000, 0, 10000⟩⟩ [1]
      ⟨1000, 0, 10000⟩ 1 rfl (by decide) rfl).2 200 (by decide) (by decide)⟩

/-- C4 counterexample: the claim says every amount making
`current + amount > max` fails with `ExceedsMax`, but when the sum is not
representable in `i128` the checked addition fails first and the call
returns `Overflow` instead.  Concretely: `current = 1`, `max = 1`,
`amount = 2^127 - 1` (itself a legal `i128` value), so
`current + amount = 2^127 > max`, yet the result is `Overflow`, not
`ExceedsMax`. -/
theorem budget_C4_cex :
    ((1 : Int) + (2 ^ 127 - 1) > 1) ∧ inI128 (2 ^ 127 - 1) ∧
    (increase_budget ⟨some 0, some [7], some ⟨1, 0, 1⟩⟩ 7 (2 ^ 127 - 1)).1 =
      .err BudgetError.Overflow ∧
    (increase_budget ⟨some 0, some [7], some ⟨1, 0, 1⟩⟩ 7 (2 ^ 127 - 1)).1 ≠
      .err BudgetError.ExceedsMax := by decide

/-- C4 (amended): bound checks are inclusive on both ends.  For an
operator caller (the stored bounds being valid `i128` values):
`increase_budget` with `current + amount = max` succeeds and persists
`max`; an amount making `current + amount > max` fails with `ExceedsMax`
— provided the sum is representable in `i128`; an unrepresentable sum
fails with `Overflow` instead, the overflow check preceding the bound
check — and leaves all persisted state unchanged; symmetrically
`decrease_budget` succeeds at `current - amount = min` and fails with
`BelowMin` (state unchanged) below it when the difference is
representable, `Underflow` when it is not. -/
theorem budget_C4 {s : Store} {ops : List Principal} {b : BudgetState}
    {caller : Principal} (hops : s.operators = some ops)
    (hcall : caller ∈ ops) (hb : s.budget = some b)
    (hmx : inI128 b.max) (hmn : inI128 b.min) :
    (∀ amount : Int, b.current + amount = b.max →
      increase_budget s caller amount =
        (.ok b.max, { s with budget := some { b with current := b.max } })) ∧
    (∀ amount : Int, b.current + amount > b.max → inI128 (b.current + amount) →
      increase_budget s caller amount = (.err .ExceedsMax, s)) ∧
    (∀ amount : Int, ¬ inI128 (b.current + amount) →
      increase_budget s caller amount = (.err .Overflow, s)) ∧
    (∀ amount : Int, b.current - amount = b.min →
      decrease_budget s caller amount =
        (.ok b.min, { s with budget := some { b with current := b.min } })) ∧
    (∀ amount : Int, b.current - amount < b.min → inI128 (b.current - amount) →
      decrease_budget s caller amount = (.err .BelowMin, s)) ∧
    (∀ amount : Int, ¬ inI128 (b.current - amount) →
      decrease_budget s caller amount = (.err .Underflow, s)) := by
  have hc : containsP caller ops = true := (containsP_iff_mem caller ops).mpr hcall
  refine ⟨?_, ?_, ?_, ?_, ?_, ?_⟩
  · intro amount heq
    have hrep : inI128 (b.current + amount) := by rw [heq]; exact hmx
    rw [increase_budget_eq hops hc hb, checked_add_eq_some hrep, heq]
    simp
  · intro amount hgt hrep
    rw [increase_budget_eq hops hc hb, checked_add_eq_some hrep]
    simp [hgt]
  · intro amount hrep
    rw [increase_budget_eq hops hc hb, checked_add_eq_none hrep]
  · intro amount heq
    have hrep : inI128 (b.current - amount) := by rw [heq]; exact hmn
    rw [decrease_budget_eq hops hc hb, checked_sub_eq_some hrep, heq]
    simp
  · intro amount hlt hrep
    rw [decrease_budget_eq hops hc hb, checked_sub_eq_some hrep]
    simp [hlt]
  · intro amount hrep
    rw [decrease_budget_eq hops hc hb, checked_sub_eq_none hrep]

/-- Witness for C4: from `current = 1000`, bounds 0/10000, operator `1`:
increase by 9000 lands exactly on `max` and succeeds; increase by 9001
fails `ExceedsMax` with the state unchanged; decrease by 1000 lands on
`min` and succeeds; decrease by 1001 fails `BelowMin`. -/
theorem budget_C4_witness :
    increase_budget ⟨some 0, some [1], some ⟨1000, 0, 10000⟩⟩ 1 9000 =
      (.ok 10000, ⟨some 0, some [1], some ⟨10000, 0, 10000⟩⟩) ∧
    increase_budget ⟨some 0, some [1], some ⟨1000, 0, 10000⟩⟩ 1 9001 =
      (.err .ExceedsMax, ⟨some 0, some [1], some ⟨1000, 0, 10000⟩⟩) ∧
    decrease_budget ⟨some 0, some [1], some ⟨1000, 0, 10000⟩⟩ 1 1000 =
      (.ok 0, ⟨some 0, some [1], some ⟨0, 0, 10000⟩⟩) ∧
    decrease_budget ⟨some 0, some [1], some ⟨1000, 0, 10000⟩⟩ 1 1001 =
      (.err .BelowMin, ⟨some 0, some [1], some ⟨1000, 0, 10000⟩⟩) :=
  ⟨(@budget_C4 ⟨some 0, some [1], some ⟨1000, 0, 10000⟩⟩ [1] ⟨1000, 0, 10000⟩
      1 rfl (by decide) rfl (by decide) (by decide)).1 9000 (by decide),
    (@budget_C4 ⟨some 0, some [1], some ⟨1000, 0, 10000⟩⟩ [1] ⟨1000, 0, 10000⟩
      1 rfl (by decide) rfl (by decide) (by decide)).2.1 9001 (by decide)
      (by decide),
    (@budget_C4 ⟨some 0, some [1], some ⟨1000, 0, 10000⟩⟩ [1] ⟨1000, 0, 10000⟩
      1 rfl (by decide) rfl (by decide) (by decide)).2.2.2.1 1000 (by decide),
    (@budget_C4 ⟨some 0, some [1], some ⟨1000, 0, 10000⟩⟩ [1] ⟨1000, 0, 10000⟩
      1 rfl (by decide) rfl (by decide) (by decide)).2.2.2.2.1 1001 (by decide)
      (by decide)⟩

theorem increase_overflow_eq {s : Store} {ops : List Principal}
    {b : BudgetState} {caller : Principal} (hops : s.operators = some ops)
    (hc : containsP caller ops = true) (hb : s.budget = some b)
    {amount : Int} (hrep : ¬ inI128 (b.current + amount)) :
    increase_budget s caller amount = (.err .Overflow, s) := by
  rw [increase_budget_eq hops hc hb, checked_add_eq_none hrep]

theorem increase_exceeds_eq {s : Store} {ops : List Principal}
    {b : BudgetState} {caller : Principal} (hops : s.operators = some ops)
    (hc : containsP caller ops = true) (hb : s.budget = some b)
    {amount : Int} (hrep : inI128 (b.current + amount))
    (hgt : b.current + amount > b.max) :
    increase_budget s caller amount = (.err .ExceedsMax, s) := by
  rw [increase_budget_eq hops hc hb, checked_add_eq_some hrep]
  simp [hgt]

theorem increase_ok_eq {s : Store} {ops : List Principal}
    {b : BudgetState} {caller : Principal} (hops : s.operators = some ops)
    (hc : containsP caller ops = true) (hb : s.budget = some b)
    {amount : Int} (hrep : inI128 (b.current + amount))
    (hle : b.current + amount ≤ b.max) :
    increase_budget s caller amount =
      (.ok (b.current + amount),
        { s with budget := some { b with current := b.current + amount } }) := by
  rw [increase_budget_eq hops hc hb, checked_add_eq_some hrep]
  simp [not_lt.mpr hle]

theorem decrease_underflow_eq {s : Store} {ops : List Principal}
    {b : BudgetState} {caller : Principal} (hops : s.operators = some ops)
    (hc : containsP caller ops = true) (hb : s.budget = some b)
    {amount : Int} (hrep : ¬ inI128 (b.current - amount)) :
    decrease_budget s caller amount = (.err .Underflow, s) := by
  rw [decrease_budget_eq hops hc hb, checked_sub_eq_none hrep]

theorem decrease_below_eq {s : Store} {ops : List Principal}
    {b : BudgetState} {caller : Principal} (hops : s.operators = some ops)
    (hc : containsP caller ops = true) (hb : s.budget = some b)
    {amount : Int} (hrep : inI128 (b.current - amount))
    (hlt : b.current - amount < b.min) :
    decrease_budget s caller amount = (.err .BelowMin, s) := by
  rw [decrease_budget_eq hops hc hb, checked_sub_eq_some hrep]
  simp [hlt]

theorem decrease_ok_eq {s : Store} {ops : List Principal}
    {b : BudgetState} {caller : Principal} (hops : s.operators = some ops)
    (hc : containsP caller ops = true) (hb : s.budget = some b)
    {amount : Int} (hrep : inI128 (b.current - amount))
    (hge : b.min ≤ b.current - amount) :
    decrease_budget s caller amount =
      (.ok (b.current - amount),
        { s with budget := some { b with current := b.current - amount } }) := by
  rw [decrease_budget_eq hops hc hb, checked_sub_eq_some hrep]
  simp [not_lt.mpr hge]

/-- C5 (confirmed): for an operator caller, `increase_budget` fails with
`Overflow` exactly when `current + amount` is outside the signed 128-bit
range, and `decrease_budget` fails with `Underflow` exactly when
`current - amount` is; in both failure cases all persisted state is left
unchanged. -/
theorem budget_C5 {s : Store} {ops : List Principal} {b : BudgetState}
    {caller : Principal} (hops : s.operators = some ops)
    (hcall : caller ∈ ops) (hb : s.budget = some b) :
    ∀ amount : Int,
      ((increase_budget s caller amount).1 = .err .Overflow ↔
        ¬ inI128 (b.current + amount)) ∧
      ((increase_budget s caller amount).1 = .err .Overflow →
        (increase_budget s caller amount).2 = s) ∧
      ((decrease_budget s caller amount).1 = .err .Underflow ↔
        ¬ inI128 (b.current - amount)) ∧
      ((decrease_budget s caller amount).1 = .err .Underflow →
        (decrease_budget s caller amount).2 = s) := by
  have hc : containsP caller ops = true := (containsP_iff_mem caller ops).mpr hcall
  intro amount
  refine ⟨?_, ?_, ?_, ?_⟩
  · by_cases hrep : inI128 (b.current + amount)
    · constructor
      · intro h
        exfalso
        by_cases hle : b.current + amount ≤ b.max
        · rw [increase_ok_eq hops hc hb hrep hle] at h
          simp at h
        · rw [increase_exceeds_eq hops hc hb hrep (not_le.mp hle)] at h
          simp at h
      · intro hn
        exact absurd hrep hn
    · rw [increase_overflow_eq hops hc hb hrep]
      simp [hrep]
  · intro h
    by_cases hrep : inI128 (b.current + amount)
    · exfalso
      by_cases hle : b.current + amount ≤ b.max
      · rw [increase_ok_eq hops hc hb hrep hle] at h
        simp at h
      · rw [increase_exceeds_eq hops hc hb hrep (not_le.mp hle)] at h
        simp at h
    · rw [increase_overflow_eq hops hc hb hrep]
  · by_cases hrep : inI128 (b.current - amount)
    · constructor
      · intro h
        exfalso
        by_cases hge : b.min ≤ b.current - amount
        · rw [decrease_ok_eq hops hc hb hrep hge] at h
          simp at h
        · rw [decrease_below_eq hops hc hb hrep (not_le.mp hge)] at h
          simp at h
      · intro hn
        exact absurd hrep hn
    · rw [decrease_underflow_eq hops hc hb hrep]
      simp [hrep]
  · intro h
    by_cases hrep : inI128 (b.current - amount)
    · exfalso
      by_cases hge : b.min ≤ b.current - amount
      · rw [decrease_ok_eq hops hc hb hrep hge] at h
        simp at h
      · rw [decrease_below_eq hops hc hb hrep (not_le.mp hge)] at h
        simp at h
    · rw [decrease_underflow_eq hops hc hb hrep]

/-- Witness for C5: at `current = 1000`, bounds 0/10000, operator `1`,
amount 500, neither side of either iff holds and the two implications
hold vacuously or trivially. -/
theorem budget_C5_witness :
    ((increase_budget ⟨some 0, some [1], some ⟨1000, 0, 10000⟩⟩ 1 500).1 =
        .err .Overflow ↔ ¬ inI128 ((1000 : Int) + 500)) ∧
    ((increase_budget ⟨some 0, some [1], some ⟨1000, 0, 10000⟩⟩ 1 500).1 =
        .err .Overflow →
      (increase_budget ⟨some 0, some [1], some ⟨1000, 0, 10000⟩⟩ 1 500).2 =
        ⟨some 0, some [1], some ⟨1000, 0, 10000⟩⟩) ∧
    ((decrease_budget ⟨some 0, some [1], some ⟨1000, 0, 10000⟩⟩ 1 500).1 =
        .err .Underflow ↔ ¬ inI128 ((1000 : Int) - 500)) ∧
    ((decrease_budget ⟨some 0, some [1], some ⟨1000, 0, 10000⟩⟩ 1 500).1 =
        .err .Underflow →
      (decrease_budget ⟨some 0, some [1], some ⟨1000, 0, 10000⟩⟩ 1 500).2 =
        ⟨some 0, some [1], some ⟨1000, 0, 10000⟩⟩) :=
  @budget_C5 ⟨some 0, some [1], some ⟨1000, 0, 10000⟩⟩ [1] ⟨1000, 0, 10000⟩
    1 rfl (by decide) rfl 500

/-- C6 (confirmed): for an Active state and any caller different from the
stored owner, both `add_operator` and `remove_operator` fail with
`NotOwner` and leave all persisted state unchanged, whatever the
operator argument. -/
theorem budget_C6 {s : Store} {o : Principal} (hown : s.owner = some o)
    {caller : Principal} (hne : caller ≠ o) (operator : Principal) :
    add_operator s caller operator = (.err .NotOwner, s) ∧
    remove_operator s caller operator = (.err .NotOwner, s) := by
  unfold add_operator remove_operator
  simp [hown, hne]

/-- Witness for C6: caller `5` is not the stored owner `0`. -/
theorem budget_C6_witness :
    add_operator ⟨some 0, some [1], some ⟨1000, 0, 10000⟩⟩ 5 9 =
      (.err .NotOwner, ⟨some 0, some [1], some ⟨1000, 0, 10000⟩⟩) ∧
    remove_operator ⟨some 0, some [1], some ⟨1000, 0, 10000⟩⟩ 5 9 =
      (.err .NotOwner, ⟨some 0, some [1], some ⟨1000, 0, 10000⟩⟩) :=
  @budget_C6 ⟨some 0, some [1], some ⟨1000, 0, 10000⟩⟩ 0 rfl 5 (by decide) 9

/-- C7 (confirmed): for an Active state and any caller outside the
operator set, `increase_budget` and `decrease_budget` fail with
`NotOperator` and leave all persisted state unchanged, for every
amount. -/
theorem budget_C7 {s : Store} {ops : List Principal} {caller : Principal}
    (hops : s.operators = some ops) (hmem : caller ∉ ops) (amount : Int) :
    increase_budget s caller amount = (.err .NotOperator, s) ∧
    decrease_budget s caller amount = (.err .NotOperator, s) := by
  have hc : containsP caller ops = false := (containsP_false_iff _ _).mpr hmem
  unfold increase_budget decrease_budget
  simp [hops, hc]

/-- Witness for C7 at Scenario D: the unauthorized principal `5` is not
in the operator set `[1]`. -/
theorem budget_C7_witness :
    increase_budget ⟨some 0, some [1], some ⟨1000, 0, 10000⟩⟩ 5 500 =
      (.err .NotOperator, ⟨some 0, some [1], some ⟨1000, 0, 10000⟩⟩) ∧
    decrease_budget ⟨some 0, some [1], some ⟨1000, 0, 10000⟩⟩ 5 500 =
      (.err .NotOperator, ⟨some 0, some [1], some ⟨1000, 0, 10000⟩⟩) :=
  @budget_C7 ⟨some 0, some [1], some ⟨1000, 0, 10000⟩⟩ [1] 5 rfl (by decide) 500

/-- C8 (confirmed): with the owner as caller, `remove_operator` on an
absent operator fails with `NotOperatorFound` and leaves state
unchanged; on a present one it persists exactly the filter of the
sequence that drops every occurrence of `operator`, keeping all other
entries in their original relative order. -/
theorem budget_C8 {s : Store} {o : Principal} {ops : List Principal}
    (hown : s.owner = some o) (hops : s.operators = some ops)
    (operator : Principal) :
    (operator ∉ ops →
      remove_operator s o operator = (.err .NotOperatorFound, s)) ∧
    (operator ∈ ops →
      remove_operator s o operator =
        (.ok (),
          { s with operators := some (ops.filter (fun p => decide (p ≠ operator))) })) := by
  constructor
  · intro habs
    have hc : containsP operator ops = false := (containsP_false_iff _ _).mpr habs
    unfold remove_operator
    simp [hown, hops, removeLoop_fst, hc]
  · intro hmem
    have hc : containsP operator ops = true := (containsP_iff_mem _ _).mpr hmem
    unfold remove_operator
    simp [hown, hops, removeLoop_fst, removeLoop_snd, hc]

/-- Witness for C8: owner `0`, operator set `[1, 2, 3]`: removing `9`
fails `NotOperatorFound`; removing `2` keeps `[1, 3]` in order. -/
theorem budget_C8_witness :
    ((9 : Principal) ∉ [(1 : Principal), 2, 3] ∧
      remove_operator ⟨some 0, some [1, 2, 3], some ⟨1000, 0, 10000⟩⟩ 0 9 =
        (.err .NotOperatorFound,
          ⟨some 0, some [1, 2, 3], some ⟨1000, 0, 10000⟩⟩)) ∧
    ((2 : Principal) ∈ [(1 : Principal), 2, 3] ∧
      remove_operator ⟨some 0, some [1, 2, 3], some ⟨1000, 0, 10000⟩⟩ 0 2 =
        (.ok (), ⟨some 0, some [1, 3], some ⟨1000, 0, 10000⟩⟩)) :=
  ⟨⟨by decide,
      (@budget_C8 ⟨some 0, some [1, 2, 3], some ⟨1000, 0, 10000⟩⟩ 0 [1, 2, 3]
        rfl rfl 9).1 (by decide)⟩,
    ⟨by decide,
      (@budget_C8 ⟨some 0, some [1, 2, 3], some ⟨1000, 0, 10000⟩⟩ 0 [1, 2, 3]
        rfl rfl 2).2 (by decide)⟩⟩

/-! Frame lemmas used by C9: whatever the outcome, each post-init entry
point leaves `Owner` untouched and preserves the budget's `min` and
`max` fields (add/remove do not touch `Budget` at all). -/

theorem add_operator_frame (s : Store) (c o : Principal) :
    (add_operator s c o).2.owner = s.owner ∧
    (add_operator s c o).2.budget = s.budget := by
  unfold add_operator
  repeat' split
  all_goals simp

theorem remove_operator_frame (s : Store) (c o : Principal) :
    (remove_operator s c o).2.owner = s.owner ∧
    (remove_operator s c o).2.budget = s.budget := by
  unfold remove_operator
  dsimp only
  repeat' split
  all_goals simp

theorem increase_budget_frame (s : Store) (c : Principal) (a : Int) :
    (increase_budget s c a).2.owner = s.owner ∧
    ((increase_budget s c a).2.budget).map BudgetState.min =
      s.budget.map BudgetState.min ∧
    ((increase_budget s c a).2.budget).map BudgetState.max =
      s.budget.map BudgetState.max := by
  unfold increase_budget
  repeat' split
  all_goals simp_all

theorem decrease_budget_frame (s : Store) (c : Principal) (a : Int) :
    (decrease_budget s c a).2.owner = s.owner ∧
    ((decrease_budget s c a).2.budget).map BudgetState.min =
      s.budget.map BudgetState.min ∧
    ((decrease_budget s c a).2.budget).map BudgetState.max =
      s.budget.map BudgetState.max := by
  unfold decrease_budget
  repeat' split
  all_goals simp_all

/-- C9 (confirmed): no operation other than `initialize` ever changes the
stored `Owner` or the budget's `min` / `max`: for every store, caller,
operator argument and amount — whether the call succeeds or fails — the
store left by `add_operator`, `remove_operator`, `increase_budget` and
`decrease_budget` has the same `Owner`, and its budget entry (if any)
the same `min` and `max`, as before the call (for add/remove the whole
budget entry is untouched). -/
theorem budget_C9 (s : Store) (caller operator : Principal) (amount : Int) :
    ((add_operator s caller operator).2.owner = s.owner ∧
      (add_operator s caller operator).2.budget = s.budget) ∧
    ((remove_operator s caller operator).2.owner = s.owner ∧
      (remove_operator s caller operator).2.budget = s.budget) ∧
    ((increase_budget s caller amount).2.owner = s.owner ∧
      ((increase_budget s caller amount).2.budget).map BudgetState.min =
        s.budget.map BudgetState.min ∧
      ((increase_budget s caller amount).2.budget).map BudgetState.max =
        s.budget.map BudgetState.max) ∧
    ((decrease_budget s caller amount).2.owner = s.owner ∧
      ((decrease_budget s caller amount).2.budget).map BudgetState.min =
        s.budget.map BudgetState.min ∧
      ((decrease_budget s caller amount).2.budget).map BudgetState.max =
        s.budget.map BudgetState.max) :=
  ⟨add_operator_frame s caller operator,
    remove_operator_frame s caller operator,
    increase_budget_frame s caller amount,
    decrease_budget_frame s caller amount⟩

/-- C10 (confirmed): zero is an identity for the budget mutations.  For
an Active store whose `current` is a valid `i128` (as every stored value
is) with `current ≤ max`, an operator calling `increase_budget` with
amount 0 gets `Ok(current)` and the store is left exactly as it was;
symmetrically for `decrease_budget` when `min ≤ current`. -/
theorem budget_C10 {s : Store} {ops : List Principal} {b : BudgetState}
    {caller : Principal} (hops : s.operators = some ops)
    (hcall : caller ∈ ops) (hb : s.budget = some b)
    (hcur : inI128 b.current) :
    (b.current ≤ b.max →
      increase_budget s caller 0 = (.ok b.current, s)) ∧
    (b.min ≤ b.current →
      decrease_budget s caller 0 = (.ok b.current, s)) := by
  have hc : containsP caller ops = true := (containsP_iff_mem caller ops).mpr hcall
  obtain ⟨sow, sops, sbud⟩ := s
  obtain ⟨cur, mn, mx⟩ := b
  simp only at hops hb
  subst hops hb
  constructor
  · intro hle
    have hrep : inI128 (cur + 0) := by simpa using hcur
    have h := @increase_ok_eq ⟨sow, some ops, some ⟨cur, mn, mx⟩⟩ ops
      ⟨cur, mn, mx⟩ caller rfl hc rfl 0 hrep (by simpa using hle)
    simpa using h
  · intro hge
    have hrep : inI128 (cur - 0) := by simpa using hcur
    have h := @decrease_ok_eq ⟨sow, some ops, some ⟨cur, mn, mx⟩⟩ ops
      ⟨cur, mn, mx⟩ caller rfl hc rfl 0 hrep (by simpa using hge)
    simpa using h

/-- Witness for C10: operator `1`, store with `current = 1000`, bounds
0/10000: both zero-amount calls return 1000 and leave the store
unchanged. -/
theorem budget_C10_witness :
    increase_budget ⟨some 0, some [1], some ⟨1000, 0, 10000⟩⟩ 1 0 =
      (.ok 1000, ⟨some 0, some [1], some ⟨1000, 0, 10000⟩⟩) ∧
    decrease_budget ⟨some 0, some [1], some ⟨1000, 0, 10000⟩⟩ 1 0 =
      (.ok 1000, ⟨some 0, some [1], some ⟨1000, 0, 10000⟩⟩) :=
  ⟨(@budget_C10 ⟨some 0, some [1], some ⟨1000, 0, 10000⟩⟩ [1] ⟨1000, 0, 10000⟩
      1 rfl (by decide) rfl (by decide)).1 (by decide),
    (@budget_C10 ⟨some 0, some [1], some ⟨1000, 0, 10000⟩⟩ [1] ⟨1000, 0, 10000⟩
      1 rfl (by decide) rfl (by decide)).2 (by decide)⟩
